import Mathlib

/-!
Verification development for the volpy geometry engine
(`src/volpy/geometry.py`).

The Python source is embedded shallowly over the exact rationals `ℚ`:
the original code performs its arithmetic through sympy, which computes
symbolically (exactly) on the numeric inputs, so `ℚ` is the faithful
value domain.  Division follows the Lean convention `q / 0 = 0`; every
place where the source can actually divide by zero is discussed at the
definition that embeds it.

State-mutating methods of `TriangularMesh` are embedded in state-passing
style: a method that mutates `self` returns the new mesh record next to
its result value.
-/

/-- Modelled from the spec: the 3D coordinate value type is an external
collaborator of this repository (`coordinates.CartesianCoordinate` is
imported by `src/volpy/geometry.py` but its module is not part of the
sources).  Per the spec it holds `x`, `y`, `z`, supports coordinate-wise
subtraction producing a vector, and supports a total ordering keyed on
the x-coordinate. -/
structure CartesianCoordinate where
  x : ℚ
  y : ℚ
  z : ℚ
deriving DecidableEq

/-- Modelled from the spec: coordinate-wise subtraction `point_B - point_A`
producing a 3-component vector (confirmed by the repository tests in
`src/volpy/test/test_geometry.py`, `test_point_subtraction`). -/
def CartesianCoordinate.sub (b a : CartesianCoordinate) : ℚ × ℚ × ℚ :=
  (b.x - a.x, b.y - a.y, b.z - a.z)

/-- Embedding of `numpy.cross` on 3-vectors, as used by
`Triangle.get_plane_equation` (geometry.py line 57). -/
def cross (u v : ℚ × ℚ × ℚ) : ℚ × ℚ × ℚ :=
  (u.2.1 * v.2.2 - u.2.2 * v.2.1,
   u.2.2 * v.1 - u.1 * v.2.2,
   u.1 * v.2.1 - u.2.1 * v.1)

/-- The affine expression `slope * x + linear_constant` that
`Line2D.get_line_equation` builds through sympy (geometry.py lines 31-35).
The sympy object is exactly an affine expression in the symbol `x`, so it
is represented losslessly by its two coefficients. -/
structure Aff1 where
  slope : ℚ
  linear_constant : ℚ
deriving DecidableEq

/-- Evaluation of the returned line expression at a query `x`. -/
def Aff1.eval (f : Aff1) (x : ℚ) : ℚ :=
  f.slope * x + f.linear_constant

/-- Embedding of class `Line2D` (geometry.py lines 10-35): a 2-dimensional
line through `point_A` and `point_B`. -/
structure Line2D where
  point_A : CartesianCoordinate
  point_B : CartesianCoordinate
deriving DecidableEq

/-- Embedding of `Line2D.get_line_equation` (geometry.py lines 24-35).
The source returns `None` when `point_B.x - point_A.x == 0` (line parallel
to the y axis) and otherwise the sympy expression
`slope*x + linear_constant`; `None` is embedded as `none`. -/
def Line2D.get_line_equation (l : Line2D) : Option Aff1 :=
  if l.point_B.x - l.point_A.x = 0 then
    none
  else
    let slope := (l.point_B.y - l.point_A.y) / (l.point_B.x - l.point_A.x)
    let linear_constant := -slope * l.point_A.x + l.point_A.y
    some ⟨slope, linear_constant⟩

/-- A line whose endpoints share their x-coordinate yields the undefined
sentinel. -/
theorem Line2D.get_line_equation_none (A B : CartesianCoordinate)
    (h : A.x = B.x) : (Line2D.mk A B).get_line_equation = none := by
  simp [Line2D.get_line_equation, h]

/-- A line whose endpoints have distinct x-coordinates yields the affine
equation with the slope and linear constant computed by the source. -/
theorem Line2D.get_line_equation_some (A B : CartesianCoordinate)
    (h : A.x ≠ B.x) :
    (Line2D.mk A B).get_line_equation =
      some ⟨(B.y - A.y) / (B.x - A.x),
            -((B.y - A.y) / (B.x - A.x)) * A.x + A.y⟩ := by
  simp only [Line2D.get_line_equation]
  rw [if_neg (sub_ne_zero.mpr (Ne.symm h))]

/-- C8: for every two points with equal x-coordinates,
`Line2D.get_line_equation` returns the undefined sentinel (`None`), never an
approximate near-vertical slope; consequently there is no callable equation
to answer any query x. -/
theorem line_equation_vertical_none (l : Line2D)
    (h : l.point_A.x = l.point_B.x) : l.get_line_equation = none :=
  Line2D.get_line_equation_none l.point_A l.point_B h

/-- Witness for C8 at the repository test case A=(3,5,8), B=(3,2,4). -/
theorem line_equation_vertical_none_witness :
    (Line2D.mk ⟨3, 5, 8⟩ ⟨3, 2, 4⟩).point_A.x
        = (Line2D.mk ⟨3, 5, 8⟩ ⟨3, 2, 4⟩).point_B.x
      ∧ (Line2D.mk ⟨3, 5, 8⟩ ⟨3, 2, 4⟩).get_line_equation = none :=
  ⟨rfl, line_equation_vertical_none (Line2D.mk ⟨3, 5, 8⟩ ⟨3, 2, 4⟩) rfl⟩

/-- C9: for every two points with distinct x-coordinates, the equation
returned by `Line2D.get_line_equation` reproduces `point_A.y` at
`point_A.x` and `point_B.y` at `point_B.x` exactly. -/
theorem line_equation_interpolates (l : Line2D)
    (h : l.point_A.x ≠ l.point_B.x) :
    l.get_line_equation.map
        (fun f => (f.eval l.point_A.x, f.eval l.point_B.x))
      = some (l.point_A.y, l.point_B.y) := by
  rw [show l = Line2D.mk l.point_A l.point_B from rfl,
      Line2D.get_line_equation_some l.point_A l.point_B h]
  have hne : l.point_B.x - l.point_A.x ≠ 0 := sub_ne_zero.mpr (Ne.symm h)
  simp only [Option.map_some', Aff1.eval, Option.some.injEq, Prod.mk.injEq]
  constructor
  · ring
  · field_simp
    ring

/-- Witness for C9 at the repository test case A=(3,5,8), B=(4,2,4). -/
theorem line_equation_interpolates_witness :
    (Line2D.mk ⟨3, 5, 8⟩ ⟨4, 2, 4⟩).point_A.x
        ≠ (Line2D.mk ⟨3, 5, 8⟩ ⟨4, 2, 4⟩).point_B.x
      ∧ (Line2D.mk ⟨3, 5, 8⟩ ⟨4, 2, 4⟩).get_line_equation.map
          (fun f => (f.eval (Line2D.mk ⟨3, 5, 8⟩ ⟨4, 2, 4⟩).point_A.x,
                     f.eval (Line2D.mk ⟨3, 5, 8⟩ ⟨4, 2, 4⟩).point_B.x))
        = some ((Line2D.mk ⟨3, 5, 8⟩ ⟨4, 2, 4⟩).point_A.y,
                (Line2D.mk ⟨3, 5, 8⟩ ⟨4, 2, 4⟩).point_B.y) :=
  ⟨by norm_num,
   line_equation_interpolates (Line2D.mk ⟨3, 5, 8⟩ ⟨4, 2, 4⟩) (by norm_num)⟩

/-- Embedding of class `Triangle` (geometry.py lines 37-105): a triangle in
a 3D Cartesian coordinate system holding its three constructor points. -/
structure Triangle where
  point_A : CartesianCoordinate
  point_B : CartesianCoordinate
  point_C : CartesianCoordinate
deriving DecidableEq

/-- The normal vector `np.cross(point_B - point_A, point_C - point_B)`
computed by `Triangle.get_plane_equation` (geometry.py lines 55-57). -/
def Triangle.normal_vector (t : Triangle) : ℚ × ℚ × ℚ :=
  cross (t.point_B.sub t.point_A) (t.point_C.sub t.point_B)

/-- The affine expression `coeff_x * x + coeff_y * y + coeff_const` in the
sympy symbols `x, y` that `Triangle.get_plane_equation` returns.  The
returned sympy object `((-a*(x-xo)-b*(y-yo))/c)+zo` is affine in `x` and
`y`, so it is represented by its three coefficients; the lemma
`Triangle.get_plane_equation_eval` below checks the representation against
the literal source expression. -/
structure Aff2 where
  coeff_x : ℚ
  coeff_y : ℚ
  coeff_const : ℚ
deriving DecidableEq

/-- Evaluation of the plane expression at `(x, y)`. -/
def Aff2.eval (p : Aff2) (x y : ℚ) : ℚ :=
  p.coeff_x * x + p.coeff_y * y + p.coeff_const

/-- Embedding of `Triangle.get_plane_equation` (geometry.py lines 47-63):
with `(a, b, c)` the normal vector and `(xo, yo, zo)` the coordinates of
`point_A`, the source returns the sympy expression
`((-a*(x-xo)-b*(y-yo))/c)+zo`.  Note the source performs no check on `c`
and contains no raise statement: when `c = 0`, sympy division of the
numerator by the zero scalar yields a symbolic complex infinity inside the
expression instead of raising an exception. -/
def Triangle.get_plane_equation (t : Triangle) : Aff2 :=
  let n := t.normal_vector
  let a := n.1
  let b := n.2.1
  let c := n.2.2
  let xo := t.point_A.x
  let yo := t.point_A.y
  let zo := t.point_A.z
  ⟨-a / c, -b / c, (a * xo + b * yo) / c + zo⟩

/-- The coefficient representation evaluates to the literal source
expression `((-a*(x-xo)-b*(y-yo))/c)+zo` for every `x, y` (for `c = 0`
both sides degenerate to `zo` under the Lean division convention). -/
theorem Triangle.get_plane_equation_eval (t : Triangle) (x y : ℚ) :
    t.get_plane_equation.eval x y =
      (-t.normal_vector.1 * (x - t.point_A.x)
        - t.normal_vector.2.1 * (y - t.point_A.y)) / t.normal_vector.2.2
      + t.point_A.z := by
  rcases eq_or_ne t.normal_vector.2.2 0 with hc | hc
  · simp [Aff2.eval, Triangle.get_plane_equation, hc]
  · simp only [Aff2.eval, Triangle.get_plane_equation]
    field_simp
    ring

/-- Modelled from the spec: the `DegeneratePlane` error condition that the
spec (sections 4.2 and 7) requires `Triangle.get_plane_equation` and
`Triangle.get_volume` to raise when the z-component of the normal vector is
zero.  The source `src/volpy/geometry.py` defines no such exception class
and performs no such check. -/
inductive DegeneratePlane where
  | degenerate
deriving DecidableEq

/-- Error-channel view of `Triangle.get_plane_equation`: a Python method
surfaces an error by raising an exception, embedded here as the `Except`
error channel.  The source body (geometry.py lines 47-63) is straight-line
arithmetic with no raise statement and no zero test on `c`; sympy division
by a zero scalar produces a complex-infinity expression rather than an
exception, so every input returns through the ok channel. -/
def Triangle.plane_equation_result (t : Triangle) :
    Except DegeneratePlane Aff2 :=
  Except.ok t.get_plane_equation

/-- Stable insertion of `C` into the x-sorted pair `(p, q)`; helper for
`sort3`. -/
def insert3 (p q C : CartesianCoordinate) :
    CartesianCoordinate × CartesianCoordinate × CartesianCoordinate :=
  if C.x < q.x then
    if C.x < p.x then (C, p, q) else (p, C, q)
  else
    (p, q, C)

/-- Embedding of `points.sort()` in `Triangle.get_volume` (geometry.py
lines 85-87) for the three-element list `[point_A, point_B, point_C]`.
Modelled from the spec for the comparison: the coordinate type's total
ordering is keyed on the x-coordinate only.  Python's `list.sort` is
stable and ascending, which for three elements is exactly this stable
insertion sort: an element moves left only when its key is strictly
smaller. -/
def sort3 (A B C : CartesianCoordinate) :
    CartesianCoordinate × CartesianCoordinate × CartesianCoordinate :=
  if B.x < A.x then insert3 B A C else insert3 A B C

/-- The inner symbolic integration step
`integrate(plane, (y, line_from_equation, line_to_equation))` of
`Triangle.get_volume` (geometry.py lines 79-82): the antiderivative of the
affine integrand in `y`, evaluated between the two affine boundary lines.
The result is a quadratic polynomial in the remaining symbol `x`,
represented by its coefficients `(c0, c1, c2)`. -/
def integrate_y (plane : Aff2) (line_from_equation line_to_equation : Aff1) :
    ℚ × ℚ × ℚ :=
  let s1 := line_from_equation.slope
  let k1 := line_from_equation.linear_constant
  let s2 := line_to_equation.slope
  let k2 := line_to_equation.linear_constant
  (plane.coeff_const * (k2 - k1)
     + plane.coeff_y * ((k2 + k1) * (k2 - k1)) / 2,
   plane.coeff_x * (k2 - k1) + plane.coeff_const * (s2 - s1)
     + plane.coeff_y * ((s2 - s1) * (k2 + k1) + (k2 - k1) * (s2 + s1)) / 2,
   plane.coeff_x * (s2 - s1) + plane.coeff_y * ((s2 + s1) * (s2 - s1)) / 2)

/-- The outer symbolic integration step
`integrate(..., (x, outer_boundary_from, outer_boundary_to))` of
`Triangle.get_volume`: the antiderivative of the quadratic `(c0, c1, c2)`
in `x`, evaluated between the outer boundaries. -/
def integrate_x (p : ℚ × ℚ × ℚ) (x1 x2 : ℚ) : ℚ :=
  p.1 * (x2 - x1) + p.2.1 * (x2 ^ 2 - x1 ^ 2) / 2
    + p.2.2 * (x2 ^ 3 - x1 ^ 3) / 3

/-- The full double integral
`integrate(plane, (y, line_from, line_to), (x, x1, x2))` computed by
sympy inside `compute_double_integral` (geometry.py lines 79-82). -/
def doubleIntegral (plane : Aff2) (x1 x2 : ℚ)
    (line_from_equation line_to_equation : Aff1) : ℚ :=
  integrate_x (integrate_y plane line_from_equation line_to_equation) x1 x2

/-- Embedding of the local function `compute_double_integral` of
`Triangle.get_volume` (geometry.py lines 73-82): when either boundary line
equation is `None` (vertical line) the region contributes `0.0`, otherwise
the double integral of the plane over the region. -/
def compute_double_integral (plane : Aff2) (outer_boundary_from
    outer_boundary_to : ℚ)
    (line_from_equation line_to_equation : Option Aff1) : ℚ :=
  match line_from_equation, line_to_equation with
  | some f, some g => doubleIntegral plane outer_boundary_from
      outer_boundary_to f g
  | _, _ => 0

/-- The body of `Triangle.get_volume` after the sort (geometry.py lines
85-105), as a function of the plane expression and the x-sorted points:
the three boundary lines, the two per-region double integrals, and the
final sum of their absolute values. -/
def volumeFromSorted (plane : Aff2)
    (sorted_point_A sorted_point_B sorted_point_C : CartesianCoordinate) :
    ℚ :=
  let lineAB := Line2D.mk sorted_point_A sorted_point_B
  let lineBC := Line2D.mk sorted_point_B sorted_point_C
  let lineAC := Line2D.mk sorted_point_A sorted_point_C
  let volume1 := compute_double_integral plane sorted_point_A.x
      sorted_point_B.x lineAC.get_line_equation lineAB.get_line_equation
  let volume2 := compute_double_integral plane sorted_point_B.x
      sorted_point_C.x lineAC.get_line_equation lineBC.get_line_equation
  |volume1| + |volume2|

/-- Embedding of `Triangle.get_volume` (geometry.py lines 65-105): obtain
the plane expression, sort the points on the x coordinate, and return the
sum of the absolute values of the two per-region double integrals. -/
def Triangle.get_volume (t : Triangle) : ℚ :=
  let plane := t.get_plane_equation
  let s := sort3 t.point_A t.point_B t.point_C
  volumeFromSorted plane s.1 s.2.1 s.2.2

/-- The x-sorted points of the triangle (geometry.py lines 85-87). -/
def Triangle.sorted_points (t : Triangle) :
    CartesianCoordinate × CartesianCoordinate × CartesianCoordinate :=
  sort3 t.point_A t.point_B t.point_C

/-- Region 1 double integral `volume1` of `Triangle.get_volume`
(geometry.py lines 93-96): `x` spans the first two sorted points, `y` is
bounded by line AC (from) and line AB (to). -/
def Triangle.volume1 (t : Triangle) : ℚ :=
  compute_double_integral t.get_plane_equation t.sorted_points.1.x
    t.sorted_points.2.1.x
    (Line2D.mk t.sorted_points.1 t.sorted_points.2.2).get_line_equation
    (Line2D.mk t.sorted_points.1 t.sorted_points.2.1).get_line_equation

/-- Region 2 double integral `volume2` of `Triangle.get_volume`
(geometry.py lines 98-101): `x` spans the last two sorted points, `y` is
bounded by line AC (from) and line BC (to). -/
def Triangle.volume2 (t : Triangle) : ℚ :=
  compute_double_integral t.get_plane_equation t.sorted_points.2.1.x
    t.sorted_points.2.2.x
    (Line2D.mk t.sorted_points.1 t.sorted_points.2.2).get_line_equation
    (Line2D.mk t.sorted_points.2.1 t.sorted_points.2.2).get_line_equation

/-- The volume body agrees with the two named region integrals. -/
theorem Triangle.get_volume_eq (t : Triangle) :
    t.get_volume = |t.volume1| + |t.volume2| := rfl

/-- A point cloud: the ordered collection of `(x, y, z)` records that a
pandas DataFrame with columns `x`, `y`, `z` holds, indexed positionally
as `iloc` does. -/
abbrev Cloud := List CartesianCoordinate

/-- The Delaunay triangulation collaborator
`Delaunay(data_points[['x','y']]).simplices` (geometry.py line 134): an
external library function from the horizontal projection of the cloud to
a list of index triples (facets).  The mesh-level theorems quantify over
it, since only the `(x, y)` columns are passed to it. -/
abbrev Triangulation := List (ℚ × ℚ) → List (ℕ × ℕ × ℕ)

/-- The `data_points` argument of `TriangularMesh.get_volume`: the source
tests `type(data_points) is not pd.core.frame.DataFrame` (geometry.py
line 131), so a call either supplies a genuine record table or any other
value (including the default string `'Default'`), and all non-table
values take the same substitution branch. -/
inductive VolumeArg where
  | table (data : Cloud)
  | notTable
deriving DecidableEq

/-- Embedding of class `TriangularMesh` (geometry.py lines 107-195): the
stored point cloud and the mutable flat-volume cache dictionary, which
maps a reference level to its previously computed flat-surface volume.
The Python dictionary keyed by exact float equality is embedded as an
association list with exact `ℚ` key equality. -/
structure TriangularMesh where
  point_cloud : Cloud
  flat_volume : List (ℚ × ℚ)
deriving DecidableEq

/-- Dictionary lookup `self._flat_volume[ref_level]` and the membership
test `ref_level not in self._flat_volume.keys()` (geometry.py lines
175-177, 192-194), with exact key equality. -/
def lookupFlat : List (ℚ × ℚ) → ℚ → Option ℚ
  | [], _ => none
  | (k, v) :: rest, r => if k = r then some v else lookupFlat rest r

/-- Dictionary assignment `self._flat_volume[ref_level] = v`
(geometry.py line 163): overwrite the key if present, else add it. -/
def insertFlat : List (ℚ × ℚ) → ℚ → ℚ → List (ℚ × ℚ)
  | [], k, v => [(k, v)]
  | (k', v') :: rest, k, v =>
      if k' = k then (k, v) :: rest else (k', v') :: insertFlat rest k v

/-- Embedding of `TriangularMesh.__init__` (geometry.py lines 109-120):
store the cloud and initialize the cache to `{0.0: 0.0}`.  The unused
`ref_level` constructor parameter of the source is dropped. -/
def TriangularMesh.init (point_cloud : Cloud) : TriangularMesh :=
  ⟨point_cloud, [(0, 0)]⟩

/-- Embedding of `TriangularMesh.get_volume` (geometry.py lines 122-155):
substitute the stored cloud when the argument is not a record table,
triangulate the `(x, y)` projection, and sum the volume of the triangle
built from each facet's three records.  The `print_progress` call after
each facet is a fire-and-forget progress sink (spec section 5) with no
effect on the computed value, so it has no counterpart here.  Facet
indices are assumed in range, as guaranteed by the triangulation
(out-of-range indices read the origin record). -/
def TriangularMesh.get_volume (dt : Triangulation) (m : TriangularMesh)
    (data_points : VolumeArg) : ℚ :=
  let pts : Cloud :=
    match data_points with
    | .table c => c
    | .notTable => m.point_cloud
  let data := dt (pts.map fun p => (p.x, p.y))
  (data.map fun s =>
      (Triangle.mk (pts.getD s.1 ⟨0, 0, 0⟩) (pts.getD s.2.1 ⟨0, 0, 0⟩)
        (pts.getD s.2.2 ⟨0, 0, 0⟩)).get_volume).sum

/-- Embedding of `TriangularMesh._get_flat_volume` (geometry.py lines
157-163): build a deep copy of the stored cloud with every `z` forced to
`ref_level`, compute its volume through `get_volume`, and store it in the
cache under `ref_level`.  The source method mutates `self` and returns
nothing; here it returns the updated mesh. -/
def TriangularMesh.get_flat_volume_upd (dt : Triangulation)
    (m : TriangularMesh) (ref_level : ℚ) : TriangularMesh :=
  let data_flat := m.point_cloud.map fun p => { p with z := ref_level }
  { m with
      flat_volume := insertFlat m.flat_volume ref_level
        (m.get_volume dt (.table data_flat)) }

/-- Embedding of `TriangularMesh.get_cut_volume` (geometry.py lines
165-178): build a deep copy of the stored cloud in which every point with
`z` strictly below `ref_level` has its `z` raised to `ref_level`, ensure
the flat volume at `ref_level` is cached, and return the copy's volume
minus the cached flat volume, together with the updated mesh state. -/
def TriangularMesh.get_cut_volume (dt : Triangulation) (m : TriangularMesh)
    (ref_level : ℚ) : ℚ × TriangularMesh :=
  let data_cut := m.point_cloud.map fun p =>
    if p.z < ref_level then { p with z := ref_level } else p
  let m1 :=
    match lookupFlat m.flat_volume ref_level with
    | none => m.get_flat_volume_upd dt ref_level
    | some _ => m
  let flat_volume := (lookupFlat m1.flat_volume ref_level).getD 0
  (m1.get_volume dt (.table data_cut) - flat_volume, m1)

/-- Embedding of `TriangularMesh.get_fill_volume` (geometry.py lines
180-195): return `0.0` at once when `ref_level == 0.0`; otherwise build a
deep copy of the stored cloud in which every point with `z` at or above
`ref_level` has its `z` lowered to `ref_level`, ensure the flat volume at
`ref_level` is cached, and return the cached flat volume minus the copy's
volume, together with the updated mesh state. -/
def TriangularMesh.get_fill_volume (dt : Triangulation) (m : TriangularMesh)
    (ref_level : ℚ) : ℚ × TriangularMesh :=
  if ref_level = 0 then (0, m)
  else
    let data_fill := m.point_cloud.map fun p =>
      if ref_level ≤ p.z then { p with z := ref_level } else p
    let m1 :=
      match lookupFlat m.flat_volume ref_level with
      | none => m.get_flat_volume_upd dt ref_level
      | some _ => m
    let flat_volume := (lookupFlat m1.flat_volume ref_level).getD 0
    (flat_volume - m1.get_volume dt (.table data_fill), m1)

/-- Looking a key up right after inserting it finds the inserted value. -/
theorem lookupFlat_insertFlat_self (cache : List (ℚ × ℚ)) (k v : ℚ) :
    lookupFlat (insertFlat cache k v) k = some v := by
  induction cache with
  | nil => simp [insertFlat, lookupFlat]
  | cons hd tl ih =>
      rcases hd with ⟨k', v'⟩
      by_cases hk : k' = k
      · simp [insertFlat, lookupFlat, hk]
      · simp [insertFlat, lookupFlat, hk, ih]

/-- The flat-surface volume at a reference level as the spec describes it:
the cached entry when one is present, else the volume of the stored cloud
with every `z` forced to the level.  Named for use in the cut and fill
statements. -/
def flatVolumeAt (dt : Triangulation) (m : TriangularMesh) (ref_level : ℚ) :
    ℚ :=
  match lookupFlat m.flat_volume ref_level with
  | some v => v
  | none => m.get_volume dt
      (.table (m.point_cloud.map fun p => { p with z := ref_level }))

/-- C2: for every mesh and reference level, `get_cut_volume` returns the
volume of the copy of the stored cloud in which exactly the points with
`z` strictly below the level are raised to the level, minus the
flat-surface volume at that level (the cached value, or the freshly
computed one, which the call also stores in the cache). -/
theorem cut_volume_spec (dt : Triangulation) (m : TriangularMesh)
    (ref_level : ℚ) :
    (m.get_cut_volume dt ref_level).1
        = m.get_volume dt (.table (m.point_cloud.map fun p =>
            if p.z < ref_level then { p with z := ref_level } else p))
          - flatVolumeAt dt m ref_level
      ∧ lookupFlat ((m.get_cut_volume dt ref_level).2).flat_volume ref_level
          = some (flatVolumeAt dt m ref_level) := by
  rcases h : lookupFlat m.flat_volume ref_level with _ | v
  · constructor
    · simp [TriangularMesh.get_cut_volume, TriangularMesh.get_flat_volume_upd,
        flatVolumeAt, h, lookupFlat_insertFlat_self, TriangularMesh.get_volume]
    · simp [TriangularMesh.get_cut_volume, TriangularMesh.get_flat_volume_upd,
        flatVolumeAt, h, lookupFlat_insertFlat_self]
  · constructor
    · simp [TriangularMesh.get_cut_volume, flatVolumeAt, h]
    · simp [TriangularMesh.get_cut_volume, flatVolumeAt, h]

/-- C3: `get_fill_volume(0.0)` short-circuits to `0.0`, leaving the mesh
untouched; for every other reference level it returns the flat-surface
volume at the level minus the volume of the copy of the stored cloud in
which exactly the points with `z` at or above the level are lowered to
the level. -/
theorem fill_volume_spec (dt : Triangulation) (m : TriangularMesh)
    (ref_level : ℚ) :
    m.get_fill_volume dt 0 = (0, m)
      ∧ (ref_level ≠ 0 →
          (m.get_fill_volume dt ref_level).1
            = flatVolumeAt dt m ref_level
              - m.get_volume dt (.table (m.point_cloud.map fun p =>
                  if ref_level ≤ p.z then { p with z := ref_level } else p))) := by
  constructor
  · simp [TriangularMesh.get_fill_volume]
  · intro href
    rcases h : lookupFlat m.flat_volume ref_level with _ | v
    · simp [TriangularMesh.get_fill_volume, TriangularMesh.get_flat_volume_upd,
        flatVolumeAt, h, href, lookupFlat_insertFlat_self,
        TriangularMesh.get_volume]
    · simp [TriangularMesh.get_fill_volume, flatVolumeAt, h, href]

/-- Witness for C3 on the empty mesh with the non-zero level 1. -/
theorem fill_volume_spec_witness :
    (1 : ℚ) ≠ 0
      ∧ (TriangularMesh.init []).get_fill_volume (fun _ => []) 0
          = (0, TriangularMesh.init [])
      ∧ ((TriangularMesh.init []).get_fill_volume (fun _ => []) 1).1
          = flatVolumeAt (fun _ => []) (TriangularMesh.init []) 1
            - (TriangularMesh.init []).get_volume (fun _ => [])
                (.table ((TriangularMesh.init []).point_cloud.map fun p =>
                  if 1 ≤ p.z then { p with z := 1 } else p)) :=
  ⟨by norm_num,
   (fill_volume_spec (fun _ => []) (TriangularMesh.init []) 1).1,
   (fill_volume_spec (fun _ => []) (TriangularMesh.init []) 1).2
     (by norm_num)⟩

/-- C7: every argument that is not a valid record table (including the
default string value) is silently substituted by the stored cloud, so
`get_volume` returns the stored cloud's own volume and raises nothing
(the embedding is a total function). -/
theorem get_volume_invalid_arg_fallback (dt : Triangulation)
    (m : TriangularMesh) :
    m.get_volume dt .notTable = m.get_volume dt (.table m.point_cloud) := rfl

/-- C10: the elevation transforms of the cut, fill, and flat-volume
queries are applied to copies only: the mesh's stored point cloud is the
same after each call.  (`TriangularMesh.get_volume` is embedded as a pure
function: the source method assigns no attribute.) -/
theorem queries_preserve_point_cloud (dt : Triangulation)
    (m : TriangularMesh) (ref_level : ℚ) :
    ((m.get_cut_volume dt ref_level).2).point_cloud = m.point_cloud
      ∧ ((m.get_fill_volume dt ref_level).2).point_cloud = m.point_cloud
      ∧ (m.get_flat_volume_upd dt ref_level).point_cloud = m.point_cloud := by
  refine ⟨?_, ?_, rfl⟩
  · rcases h : lookupFlat m.flat_volume ref_level with _ | v <;>
      simp [TriangularMesh.get_cut_volume, TriangularMesh.get_flat_volume_upd, h]
  · rcases eq_or_ne ref_level 0 with h0 | h0
    · simp [TriangularMesh.get_fill_volume, h0]
    · rcases h : lookupFlat m.flat_volume ref_level with _ | v <;>
        simp [TriangularMesh.get_fill_volume, TriangularMesh.get_flat_volume_upd,
          h, h0]

/-- On a cache hit the cut query leaves the mesh state unchanged and uses
the cached flat volume. -/
theorem get_cut_volume_hit (dt : Triangulation) (m : TriangularMesh)
    (ref_level v : ℚ) (h : lookupFlat m.flat_volume ref_level = some v) :
    m.get_cut_volume dt ref_level
      = (m.get_volume dt (.table (m.point_cloud.map fun p =>
          if p.z < ref_level then { p with z := ref_level } else p)) - v,
         m) := by
  simp [TriangularMesh.get_cut_volume, h]

/-- On a cache hit (or at level zero) the fill query leaves the mesh state
unchanged, and for a non-zero level it uses the cached flat volume. -/
theorem get_fill_volume_hit (dt : Triangulation) (m : TriangularMesh)
    (ref_level v : ℚ) (h : lookupFlat m.flat_volume ref_level = some v)
    (href : ref_level ≠ 0) :
    m.get_fill_volume dt ref_level
      = (v - m.get_volume dt (.table (m.point_cloud.map fun p =>
          if ref_level ≤ p.z then { p with z := ref_level } else p)),
         m) := by
  simp [TriangularMesh.get_fill_volume, h, href]

/-- After a cut query the flat volume at the queried level is cached. -/
theorem get_cut_volume_caches (dt : Triangulation) (m : TriangularMesh)
    (ref_level : ℚ) :
    (lookupFlat ((m.get_cut_volume dt ref_level).2).flat_volume
        ref_level).isSome = true := by
  rcases h : lookupFlat m.flat_volume ref_level with _ | v
  · simp [TriangularMesh.get_cut_volume, TriangularMesh.get_flat_volume_upd,
      h, lookupFlat_insertFlat_self]
  · simp [TriangularMesh.get_cut_volume, h]

/-- After a fill query at a non-zero level the flat volume at the queried
level is cached. -/
theorem get_fill_volume_caches (dt : Triangulation) (m : TriangularMesh)
    (ref_level : ℚ) (href : ref_level ≠ 0) :
    (lookupFlat ((m.get_fill_volume dt ref_level).2).flat_volume
        ref_level).isSome = true := by
  rcases h : lookupFlat m.flat_volume ref_level with _ | v
  · simp [TriangularMesh.get_fill_volume, TriangularMesh.get_flat_volume_upd,
      h, href, lookupFlat_insertFlat_self]
  · simp [TriangularMesh.get_fill_volume, h, href]

/-- C6: the flat-surface volume at a level is computed at most once per
mesh instance.  A first cut query stores it in the cache, a first fill
query at a non-zero level stores it in the cache, any query finding the
level cached leaves the mesh state untouched and uses the cached entry,
and in particular the second of two repeated cut (or fill) queries at the
same level is a cache hit that changes nothing. -/
theorem flat_volume_cache_at_most_once (dt : Triangulation)
    (m : TriangularMesh) (ref_level v : ℚ) :
    (lookupFlat ((m.get_cut_volume dt ref_level).2).flat_volume
        ref_level).isSome = true
      ∧ (ref_level ≠ 0 →
          (lookupFlat ((m.get_fill_volume dt ref_level).2).flat_volume
              ref_level).isSome = true)
      ∧ (lookupFlat m.flat_volume ref_level = some v →
          (m.get_cut_volume dt ref_level).2 = m
            ∧ (m.get_fill_volume dt ref_level).2 = m
            ∧ (m.get_cut_volume dt ref_level).1
                = m.get_volume dt (.table (m.point_cloud.map fun p =>
                    if p.z < ref_level then { p with z := ref_level }
                    else p)) - v
            ∧ (ref_level ≠ 0 →
                (m.get_fill_volume dt ref_level).1
                  = v - m.get_volume dt (.table (m.point_cloud.map fun p =>
                      if ref_level ≤ p.z then { p with z := ref_level }
                      else p))))
      ∧ ((m.get_cut_volume dt ref_level).2.get_cut_volume dt
            ref_level).2 = (m.get_cut_volume dt ref_level).2
      ∧ (ref_level ≠ 0 →
          ((m.get_fill_volume dt ref_level).2.get_fill_volume dt
              ref_level).2 = (m.get_fill_volume dt ref_level).2) := by
  refine ⟨get_cut_volume_caches dt m ref_level,
    fun href => get_fill_volume_caches dt m ref_level href,
    fun h => ?_, ?_, fun href => ?_⟩
  · refine ⟨?_, ?_, ?_, fun href => ?_⟩
    · rw [get_cut_volume_hit dt m ref_level v h]
    · rcases eq_or_ne ref_level 0 with h0 | h0
      · simp [TriangularMesh.get_fill_volume, h0]
      · rw [get_fill_volume_hit dt m ref_level v h h0]
    · rw [get_cut_volume_hit dt m ref_level v h]
    · rw [get_fill_volume_hit dt m ref_level v h href]
  · have hs := get_cut_volume_caches dt m ref_level
    rcases hv : lookupFlat ((m.get_cut_volume dt ref_level).2).flat_volume
        ref_level with _ | w
    · rw [hv] at hs; simp at hs
    · rw [get_cut_volume_hit dt ((m.get_cut_volume dt ref_level).2)
        ref_level w hv]
  · have hs := get_fill_volume_caches dt m ref_level href
    rcases hv : lookupFlat ((m.get_fill_volume dt ref_level).2).flat_volume
        ref_level with _ | w
    · rw [hv] at hs; simp at hs
    · rw [get_fill_volume_hit dt ((m.get_fill_volume dt ref_level).2)
        ref_level w hv href]

/-- Witness for C6 on a mesh whose cache already holds level 1 with
value 7: both queries at level 1 cache-hit and change nothing. -/
theorem flat_volume_cache_at_most_once_witness :
    (lookupFlat (((TriangularMesh.mk [] [(1, 7)]).get_cut_volume
        (fun _ => []) 1).2).flat_volume 1).isSome = true
      ∧ (lookupFlat (((TriangularMesh.mk [] [(1, 7)]).get_fill_volume
          (fun _ => []) 1).2).flat_volume 1).isSome = true
      ∧ ((TriangularMesh.mk [] [(1, 7)]).get_cut_volume
          (fun _ => []) 1).2 = TriangularMesh.mk [] [(1, 7)]
      ∧ ((TriangularMesh.mk [] [(1, 7)]).get_fill_volume
          (fun _ => []) 1).2 = TriangularMesh.mk [] [(1, 7)] :=
  ⟨(flat_volume_cache_at_most_once (fun _ => [])
      (TriangularMesh.mk [] [(1, 7)]) 1 7).1,
   (flat_volume_cache_at_most_once (fun _ => [])
      (TriangularMesh.mk [] [(1, 7)]) 1 7).2.1 (by norm_num),
   ((flat_volume_cache_at_most_once (fun _ => [])
      (TriangularMesh.mk [] [(1, 7)]) 1 7).2.2.1
      (by simp [lookupFlat])).1,
   ((flat_volume_cache_at_most_once (fun _ => [])
      (TriangularMesh.mk [] [(1, 7)]) 1 7).2.2.1
      (by simp [lookupFlat])).2.1⟩

/-- C1: for every triangle spanning a non-degenerate plane (z-component of
the normal vector non-zero), `Triangle.get_volume` returns the sum of the
absolute values of the two per-region double integrals, hence a
non-negative result. -/
theorem triangle_volume_abs_sum_nonneg (t : Triangle)
    (h : t.normal_vector.2.2 ≠ 0) :
    t.get_volume = |t.volume1| + |t.volume2| ∧ 0 ≤ t.get_volume := by
  refine ⟨Triangle.get_volume_eq t, ?_⟩
  rw [Triangle.get_volume_eq]
  positivity

/-- Witness for C1 at the triangle (0,0,0), (1,0,0), (0,1,1), whose
normal vector is (0, -1, 1). -/
theorem triangle_volume_abs_sum_nonneg_witness :
    (Triangle.mk ⟨0, 0, 0⟩ ⟨1, 0, 0⟩ ⟨0, 1, 1⟩).normal_vector.2.2 ≠ 0
      ∧ ((Triangle.mk ⟨0, 0, 0⟩ ⟨1, 0, 0⟩ ⟨0, 1, 1⟩).get_volume
          = |(Triangle.mk ⟨0, 0, 0⟩ ⟨1, 0, 0⟩ ⟨0, 1, 1⟩).volume1|
            + |(Triangle.mk ⟨0, 0, 0⟩ ⟨1, 0, 0⟩ ⟨0, 1, 1⟩).volume2|
          ∧ 0 ≤ (Triangle.mk ⟨0, 0, 0⟩ ⟨1, 0, 0⟩ ⟨0, 1, 1⟩).get_volume) :=
  ⟨by norm_num [Triangle.normal_vector, cross, CartesianCoordinate.sub],
   triangle_volume_abs_sum_nonneg (Triangle.mk ⟨0, 0, 0⟩ ⟨1, 0, 0⟩ ⟨0, 1, 1⟩)
     (by norm_num [Triangle.normal_vector, cross, CartesianCoordinate.sub])⟩

/-- C4 (evaluation at the failing input): for the vertical facet
(0,0,0), (0,1,0), (0,0,1) the z-component of the normal vector is zero,
yet `Triangle.get_plane_equation` returns through the ok channel: the
source defines no `DegeneratePlane` exception, checks nothing, and so no
error can propagate to the mesh-level aggregation. -/
theorem degenerate_plane_no_error :
    (Triangle.mk ⟨0, 0, 0⟩ ⟨0, 1, 0⟩ ⟨0, 0, 1⟩).normal_vector.2.2 = 0
      ∧ (∀ t : Triangle,
          t.plane_equation_result = Except.ok t.get_plane_equation) :=
  ⟨by norm_num [Triangle.normal_vector, cross, CartesianCoordinate.sub],
   fun _ => rfl⟩

/-- Reversing the two boundary lines negates the double integral. -/
theorem doubleIntegral_swap (pl : Aff2) (x1 x2 : ℚ) (f g : Aff1) :
    doubleIntegral pl x1 x2 f g = -doubleIntegral pl x1 x2 g f := by
  simp only [doubleIntegral, integrate_x, integrate_y]
  ring

/-- A region whose from-boundary is the vertical sentinel contributes
zero. -/
theorem compute_double_integral_none_left (pl : Aff2) (x1 x2 : ℚ)
    (l : Option Aff1) : compute_double_integral pl x1 x2 none l = 0 := by
  cases l <;> rfl

/-- A region whose to-boundary is the vertical sentinel contributes
zero. -/
theorem compute_double_integral_none_right (pl : Aff2) (x1 x2 : ℚ)
    (l : Option Aff1) : compute_double_integral pl x1 x2 l none = 0 := by
  cases l <;> rfl

/-- With both boundaries present the region integral is the double
integral. -/
theorem compute_double_integral_some_some (pl : Aff2) (x1 x2 : ℚ)
    (f g : Aff1) :
    compute_double_integral pl x1 x2 (some f) (some g)
      = doubleIntegral pl x1 x2 f g := rfl

/-- When all three sorted points share one x-coordinate every boundary
line is vertical and the volume body is zero. -/
theorem volumeFromSorted_all_eq (pl : Aff2) (A B C : CartesianCoordinate)
    (hAB : A.x = B.x) (hAC : A.x = C.x) :
    volumeFromSorted pl A B C = 0 := by
  have h1 : (Line2D.mk A C).get_line_equation = none :=
    Line2D.get_line_equation_none A C hAC
  simp [volumeFromSorted, h1, compute_double_integral_none_left]

/-- Swapping the first two sorted points, when they share their
x-coordinate, does not change the volume body: region 1 is bounded by a
vertical line on both sides, and region 2 keeps its x-span while its two
boundary lines trade places, negating the signed integral inside the
absolute value. -/
theorem volumeFromSorted_swap12 (pl : Aff2) (A B C : CartesianCoordinate)
    (hAB : A.x = B.x) :
    volumeFromSorted pl B A C = volumeFromSorted pl A B C := by
  by_cases hAC : A.x = C.x
  · rw [volumeFromSorted_all_eq pl A B C hAB hAC,
      volumeFromSorted_all_eq pl B A C hAB.symm (hAB.symm.trans hAC)]
  · have hBC : B.x ≠ C.x := fun h => hAC (hAB.trans h)
    have lAB : (Line2D.mk A B).get_line_equation = none :=
      Line2D.get_line_equation_none A B hAB
    have lBA : (Line2D.mk B A).get_line_equation = none :=
      Line2D.get_line_equation_none B A hAB.symm
    obtain ⟨fAC, eAC⟩ : ∃ f, (Line2D.mk A C).get_line_equation = some f :=
      ⟨_, Line2D.get_line_equation_some A C hAC⟩
    obtain ⟨fBC, eBC⟩ : ∃ f, (Line2D.mk B C).get_line_equation = some f :=
      ⟨_, Line2D.get_line_equation_some B C hBC⟩
    simp only [volumeFromSorted, lAB, lBA, eAC, eBC,
      compute_double_integral_none_right, compute_double_integral_some_some,
      hAB]
    rw [doubleIntegral_swap, abs_neg]

/-- Swapping the last two sorted points, when they share their
x-coordinate, does not change the volume body. -/
theorem volumeFromSorted_swap23 (pl : Aff2) (A B C : CartesianCoordinate)
    (hBC : B.x = C.x) :
    volumeFromSorted pl A C B = volumeFromSorted pl A B C := by
  by_cases hAB : A.x = B.x
  · rw [volumeFromSorted_all_eq pl A B C hAB (hAB.trans hBC),
      volumeFromSorted_all_eq pl A C B (hAB.trans hBC) hAB]
  · have hAC : A.x ≠ C.x := fun h => hAB (h.trans hBC.symm)
    have lBC : (Line2D.mk B C).get_line_equation = none :=
      Line2D.get_line_equation_none B C hBC
    have lCB : (Line2D.mk C B).get_line_equation = none :=
      Line2D.get_line_equation_none C B hBC.symm
    obtain ⟨fAB, eAB⟩ : ∃ f, (Line2D.mk A B).get_line_equation = some f :=
      ⟨_, Line2D.get_line_equation_some A B hAB⟩
    obtain ⟨fAC, eAC⟩ : ∃ f, (Line2D.mk A C).get_line_equation = some f :=
      ⟨_, Line2D.get_line_equation_some A C hAC⟩
    simp only [volumeFromSorted, lBC, lCB, eAB, eAC,
      compute_double_integral_none_right, compute_double_integral_some_some,
      hBC]
    rw [doubleIntegral_swap, abs_neg]

/-- The volume of a triangle as a function of its plane expression and
its three constructor points in order: sort, then apply the volume body.
`Triangle.get_volume t` is definitionally
`sortedVolume t.get_plane_equation t.point_A t.point_B t.point_C`. -/
def sortedVolume (pl : Aff2) (A B C : CartesianCoordinate) : ℚ :=
  volumeFromSorted pl (sort3 A B C).1 (sort3 A B C).2.1 (sort3 A B C).2.2

/-- Evaluation of `insert3` when the inserted point goes first. -/
theorem insert3_low (p q X : CartesianCoordinate) (h1 : X.x < q.x)
    (h2 : X.x < p.x) : insert3 p q X = (X, p, q) := by
  simp only [insert3]
  rw [if_pos h1, if_pos h2]

/-- Evaluation of `insert3` when the inserted point goes in the middle. -/
theorem insert3_mid (p q X : CartesianCoordinate) (h1 : X.x < q.x)
    (h2 : ¬ X.x < p.x) : insert3 p q X = (p, X, q) := by
  simp only [insert3]
  rw [if_pos h1, if_neg h2]

/-- Evaluation of `insert3` when the inserted point stays last. -/
theorem insert3_high (p q X : CartesianCoordinate) (h1 : ¬ X.x < q.x) :
    insert3 p q X = (p, q, X) := by
  simp only [insert3]
  rw [if_neg h1]

/-- Evaluation of the first comparison of `sort3`, swapping case. -/
theorem sort3_pos (A B C : CartesianCoordinate) (h : B.x < A.x) :
    sort3 A B C = insert3 B A C := by
  simp only [sort3]
  rw [if_pos h]

/-- Evaluation of the first comparison of `sort3`, stable case. -/
theorem sort3_neg (A B C : CartesianCoordinate) (h : ¬ B.x < A.x) :
    sort3 A B C = insert3 A B C := by
  simp only [sort3]
  rw [if_neg h]

/-- Swapping the first two constructor points does not change the sorted
volume: with distinct x-keys the stable sort produces the same triple,
and on ties the two stable results differ by an adjacent equal-x swap
covered by the tie lemmas. -/
theorem sortedVolume_swap12 (pl : Aff2) (A B C : CartesianCoordinate) :
    sortedVolume pl B A C = sortedVolume pl A B C := by
  unfold sortedVolume
  rcases lt_trichotomy A.x B.x with hab | hab | hab
  · rw [sort3_pos B A C hab, sort3_neg A B C (not_lt.mpr hab.le)]
  · rw [sort3_neg B A C (not_lt.mpr hab.ge), sort3_neg A B C
      (not_lt.mpr hab.le)]
    by_cases hcb : C.x < B.x
    · have hca : C.x < A.x := by rw [hab]; exact hcb
      rw [insert3_low B A C hca hcb, insert3_low A B C hcb hca]
      exact volumeFromSorted_swap23 pl C A B hab
    · have hca : ¬ C.x < A.x := by rw [hab]; exact hcb
      rw [insert3_high B A C hca, insert3_high A B C hcb]
      exact volumeFromSorted_swap12 pl A B C hab
  · rw [sort3_neg B A C (not_lt.mpr hab.le), sort3_pos A B C hab]

/-- Rotating the three constructor points does not change the sorted
volume. -/
theorem sortedVolume_rot (pl : Aff2) (A B C : CartesianCoordinate) :
    sortedVolume pl B C A = sortedVolume pl A B C := by
  unfold sortedVolume
  rcases lt_trichotomy A.x B.x with hab | hab | hab
  · rw [sort3_neg A B C (not_lt.mpr hab.le)]
    by_cases hcb : C.x < B.x
    · rw [sort3_pos B C A hcb]
      by_cases hac : A.x < C.x
      · rw [insert3_low C B A hab hac,
          insert3_mid A B C hcb (not_lt.mpr hac.le)]
      · by_cases hca : C.x < A.x
        · rw [insert3_mid C B A hab hac, insert3_low A B C hcb hca]
        · have he : A.x = C.x := le_antisymm (not_lt.mp hca) (not_lt.mp hac)
          rw [insert3_mid C B A hab hac, insert3_mid A B C hcb hca]
          exact volumeFromSorted_swap12 pl A C B he
    · rw [sort3_neg B C A hcb]
      by_cases hac : A.x < C.x
      · rw [insert3_low B C A hac hab, insert3_high A B C hcb]
      · exact absurd hab (not_lt.mpr ((not_lt.mp hcb).trans (not_lt.mp hac)))
  · rw [sort3_neg A B C (not_lt.mpr hab.le)]
    by_cases hcb : C.x < B.x
    · have hca : C.x < A.x := by rw [hab]; exact hcb
      rw [sort3_pos B C A hcb, insert3_high C B A (not_lt.mpr hab.ge),
        insert3_low A B C hcb hca]
      exact volumeFromSorted_swap23 pl C A B hab
    · rw [sort3_neg B C A hcb]
      by_cases hac : A.x < C.x
      · rw [insert3_mid B C A hac (not_lt.mpr hab.ge), insert3_high A B C hcb]
        exact volumeFromSorted_swap12 pl A B C hab
      · rw [insert3_high B C A hac, insert3_high A B C hcb]
        have h1 : B.x = C.x := by
          have := not_lt.mp hcb
          have := not_lt.mp hac
          linarith
        have h2 : B.x = A.x := hab.symm
        exact (volumeFromSorted_all_eq pl B C A h1 h2).trans
          ((volumeFromSorted_all_eq pl A B C hab (hab.trans h1)).symm)
  · rw [sort3_pos A B C hab]
    by_cases hcb : C.x < B.x
    · rw [sort3_pos B C A hcb, insert3_high C B A (not_lt.mpr hab.le),
        insert3_low B A C (hcb.trans hab) hcb]
    · rw [sort3_neg B C A hcb]
      by_cases hac : A.x < C.x
      · rw [insert3_mid B C A hac (not_lt.mpr hab.le),
          insert3_high B A C (not_lt.mpr hac.le)]
      · by_cases hca : C.x < A.x
        · rw [insert3_high B C A hac, insert3_mid B A C hca hcb]
        · have he : A.x = C.x := le_antisymm (not_lt.mp hca) (not_lt.mp hac)
          rw [insert3_high B C A hac, insert3_high B A C hca]
          exact volumeFromSorted_swap23 pl B A C he

/-- Swapping the first two points negates the z-component of the normal
vector. -/
theorem normal_z_swap12 (p q r : CartesianCoordinate) :
    (Triangle.mk q p r).normal_vector.2.2
      = -(Triangle.mk p q r).normal_vector.2.2 := by
  simp only [Triangle.normal_vector, cross, CartesianCoordinate.sub]
  ring

/-- Rotating the three points preserves the normal vector z-component. -/
theorem normal_z_rot (p q r : CartesianCoordinate) :
    (Triangle.mk q r p).normal_vector.2.2
      = (Triangle.mk p q r).normal_vector.2.2 := by
  simp only [Triangle.normal_vector, cross, CartesianCoordinate.sub]
  ring

/-- For a non-degenerate plane, swapping the first two constructor points
leaves the plane expression unchanged: the normal vector flips sign as a
whole, and the new base point lies on the same plane. -/
theorem plane_swap12 (p q r : CartesianCoordinate)
    (hc : (Triangle.mk p q r).normal_vector.2.2 ≠ 0) :
    (Triangle.mk q p r).get_plane_equation
      = (Triangle.mk p q r).get_plane_equation := by
  have hc0 : (q.x - p.x) * (r.y - q.y) - (q.y - p.y) * (r.x - q.x) ≠ 0 := by
    simpa [Triangle.normal_vector, cross, CartesianCoordinate.sub] using hc
  have key : (p.x - q.x) * (r.y - p.y) - (p.y - q.y) * (r.x - p.x)
      = -((q.x - p.x) * (r.y - q.y) - (q.y - p.y) * (r.x - q.x)) := by
    ring
  have hc1 : (p.x - q.x) * (r.y - p.y) - (p.y - q.y) * (r.x - p.x) ≠ 0 := by
    rw [key]
    exact neg_ne_zero.mpr hc0
  simp only [Triangle.get_plane_equation, Triangle.normal_vector, cross,
    CartesianCoordinate.sub, Aff2.mk.injEq]
  refine ⟨?_, ?_, ?_⟩ <;> field_simp <;> ring

/-- For a non-degenerate plane, rotating the three constructor points
leaves the plane expression unchanged: the normal vector is identical,
and the new base point lies on the same plane. -/
theorem plane_rot (p q r : CartesianCoordinate)
    (hc : (Triangle.mk p q r).normal_vector.2.2 ≠ 0) :
    (Triangle.mk q r p).get_plane_equation
      = (Triangle.mk p q r).get_plane_equation := by
  have hc0 : (q.x - p.x) * (r.y - q.y) - (q.y - p.y) * (r.x - q.x) ≠ 0 := by
    simpa [Triangle.normal_vector, cross, CartesianCoordinate.sub] using hc
  have key : (r.x - q.x) * (p.y - r.y) - (r.y - q.y) * (p.x - r.x)
      = (q.x - p.x) * (r.y - q.y) - (q.y - p.y) * (r.x - q.x) := by
    ring
  have hc1 : (r.x - q.x) * (p.y - r.y) - (r.y - q.y) * (p.x - r.x) ≠ 0 := by
    rw [key]
    exact hc0
  simp only [Triangle.get_plane_equation, Triangle.normal_vector, cross,
    CartesianCoordinate.sub, Aff2.mk.injEq]
  refine ⟨?_, ?_, ?_⟩ <;> field_simp <;> ring

/-- C5: for every three points spanning a non-degenerate plane,
`Triangle.get_volume` returns the same value for every order in which the
points are supplied to the constructor: the internal sort on the
x-coordinate (together with the per-region absolute values on ties and
the invariance of the plane expression) makes the result
order-independent. -/
theorem triangle_volume_perm_invariant (p q r : CartesianCoordinate)
    (hc : (Triangle.mk p q r).normal_vector.2.2 ≠ 0) :
    (Triangle.mk q p r).get_volume = (Triangle.mk p q r).get_volume
      ∧ (Triangle.mk q r p).get_volume = (Triangle.mk p q r).get_volume
      ∧ (Triangle.mk r p q).get_volume = (Triangle.mk p q r).get_volume
      ∧ (Triangle.mk p r q).get_volume = (Triangle.mk p q r).get_volume
      ∧ (Triangle.mk r q p).get_volume = (Triangle.mk p q r).get_volume := by
  have hqrp : (Triangle.mk q r p).normal_vector.2.2 ≠ 0 := by
    rw [normal_z_rot]
    exact hc
  have hrpq : (Triangle.mk r p q).normal_vector.2.2 ≠ 0 := by
    rw [normal_z_rot]
    exact hqrp
  have pl_qpr := plane_swap12 p q r hc
  have pl_qrp := plane_rot p q r hc
  have pl_rpq := (plane_rot q r p hqrp).trans pl_qrp
  have pl_prq := (plane_swap12 r p q hrpq).trans pl_rpq
  have pl_rqp := (plane_swap12 q r p hqrp).trans pl_qrp
  refine ⟨?_, ?_, ?_, ?_, ?_⟩
  · show sortedVolume (Triangle.mk q p r).get_plane_equation q p r
      = sortedVolume (Triangle.mk p q r).get_plane_equation p q r
    rw [pl_qpr]
    exact sortedVolume_swap12 _ p q r
  · show sortedVolume (Triangle.mk q r p).get_plane_equation q r p
      = sortedVolume (Triangle.mk p q r).get_plane_equation p q r
    rw [pl_qrp]
    exact sortedVolume_rot _ p q r
  · show sortedVolume (Triangle.mk r p q).get_plane_equation r p q
      = sortedVolume (Triangle.mk p q r).get_plane_equation p q r
    rw [pl_rpq]
    exact (sortedVolume_rot _ q r p).trans (sortedVolume_rot _ p q r)
  · show sortedVolume (Triangle.mk p r q).get_plane_equation p r q
      = sortedVolume (Triangle.mk p q r).get_plane_equation p q r
    rw [pl_prq]
    exact (sortedVolume_swap12 _ r p q).trans
      ((sortedVolume_rot _ q r p).trans (sortedVolume_rot _ p q r))
  · show sortedVolume (Triangle.mk r q p).get_plane_equation r q p
      = sortedVolume (Triangle.mk p q r).get_plane_equation p q r
    rw [pl_rqp]
    exact (sortedVolume_swap12 _ q r p).trans (sortedVolume_rot _ p q r)

/-- Witness for C5 at the points (0,0,0), (1,0,0), (0,1,1), whose plane
has normal z-component 1. -/
theorem triangle_volume_perm_invariant_witness :
    (Triangle.mk ⟨0, 0, 0⟩ ⟨1, 0, 0⟩ ⟨0, 1, 1⟩).normal_vector.2.2 ≠ 0
      ∧ ((Triangle.mk ⟨1, 0, 0⟩ ⟨0, 0, 0⟩ ⟨0, 1, 1⟩).get_volume
            = (Triangle.mk ⟨0, 0, 0⟩ ⟨1, 0, 0⟩ ⟨0, 1, 1⟩).get_volume
          ∧ (Triangle.mk ⟨1, 0, 0⟩ ⟨0, 1, 1⟩ ⟨0, 0, 0⟩).get_volume
            = (Triangle.mk ⟨0, 0, 0⟩ ⟨1, 0, 0⟩ ⟨0, 1, 1⟩).get_volume
          ∧ (Triangle.mk ⟨0, 1, 1⟩ ⟨0, 0, 0⟩ ⟨1, 0, 0⟩).get_volume
            = (Triangle.mk ⟨0, 0, 0⟩ ⟨1, 0, 0⟩ ⟨0, 1, 1⟩).get_volume
          ∧ (Triangle.mk ⟨0, 0, 0⟩ ⟨0, 1, 1⟩ ⟨1, 0, 0⟩).get_volume
            = (Triangle.mk ⟨0, 0, 0⟩ ⟨1, 0, 0⟩ ⟨0, 1, 1⟩).get_volume
          ∧ (Triangle.mk ⟨0, 1, 1⟩ ⟨1, 0, 0⟩ ⟨0, 0, 0⟩).get_volume
            = (Triangle.mk ⟨0, 0, 0⟩ ⟨1, 0, 0⟩ ⟨0, 1, 1⟩).get_volume) :=
  ⟨by norm_num [Triangle.normal_vector, cross, CartesianCoordinate.sub],
   triangle_volume_perm_invariant ⟨0, 0, 0⟩ ⟨1, 0, 0⟩ ⟨0, 1, 1⟩
     (by norm_num [Triangle.normal_vector, cross, CartesianCoordinate.sub])⟩

/-- Closed form of the interval integral of an affine function. -/
theorem intervalIntegral_affine (P Q a b : ℝ) :
    (∫ y in a..b, (P + Q * y)) = P * (b - a) + Q * (b ^ 2 - a ^ 2) / 2 := by
  have ilin : IntervalIntegrable (fun y : ℝ => Q * y)
      MeasureTheory.volume a b :=
    (continuous_const.mul continuous_id).intervalIntegrable a b
  rw [intervalIntegral.integral_add (intervalIntegrable_const) ilin,
    intervalIntegral.integral_const, intervalIntegral.integral_const_mul,
    integral_id]
  rw [smul_eq_mul]
  ring

/-- Closed form of the interval integral of a quadratic polynomial. -/
theorem intervalIntegral_quadratic (c0 c1 c2 a b : ℝ) :
    (∫ x in a..b, (c0 + c1 * x + c2 * x ^ 2))
      = c0 * (b - a) + c1 * (b ^ 2 - a ^ 2) / 2
        + c2 * (b ^ 3 - a ^ 3) / 3 := by
  have i1 : IntervalIntegrable (fun x : ℝ => c0 + c1 * x)
      MeasureTheory.volume a b :=
    (continuous_const.add (continuous_const.mul continuous_id)).intervalIntegrable a b
  have i2 : IntervalIntegrable (fun x : ℝ => c2 * x ^ 2)
      MeasureTheory.volume a b :=
    (continuous_const.mul (continuous_pow 2)).intervalIntegrable a b
  have ilin : IntervalIntegrable (fun x : ℝ => c1 * x)
      MeasureTheory.volume a b :=
    (continuous_const.mul continuous_id).intervalIntegrable a b
  rw [intervalIntegral.integral_add i1 i2,
    intervalIntegral.integral_add (intervalIntegrable_const) ilin,
    intervalIntegral.integral_const, intervalIntegral.integral_const_mul,
    intervalIntegral.integral_const_mul, integral_id, integral_pow]
  rw [smul_eq_mul]
  norm_num
  ring

/-- Faithfulness of the embedded double integral: over the reals, the
closed polynomial form `doubleIntegral` (which embeds what sympy's
`integrate` computes symbolically in `compute_double_integral`) equals
the genuine iterated interval integral of the affine plane expression
between the two affine boundary lines. -/
theorem doubleIntegral_eq_intervalIntegral (pl : Aff2)
    (line_from_equation line_to_equation : Aff1) (x1 x2 : ℚ) :
    ((doubleIntegral pl x1 x2 line_from_equation line_to_equation : ℚ) : ℝ)
      = ∫ x in (x1 : ℝ)..(x2 : ℝ),
          ∫ y in ((line_from_equation.slope : ℝ) * x
              + (line_from_equation.linear_constant : ℝ))..(
              (line_to_equation.slope : ℝ) * x
              + (line_to_equation.linear_constant : ℝ)),
            ((pl.coeff_x : ℝ) * x + (pl.coeff_y : ℝ) * y
              + (pl.coeff_const : ℝ)) := by
  have inner : ∀ x : ℝ,
      (∫ y in ((line_from_equation.slope : ℝ) * x
          + (line_from_equation.linear_constant : ℝ))..(
          (line_to_equation.slope : ℝ) * x
          + (line_to_equation.linear_constant : ℝ)),
        ((pl.coeff_x : ℝ) * x + (pl.coeff_y : ℝ) * y
          + (pl.coeff_const : ℝ)))
      = ((integrate_y pl line_from_equation line_to_equation).1 : ℝ)
        + ((integrate_y pl line_from_equation line_to_equation).2.1 : ℝ) * x
        + ((integrate_y pl line_from_equation line_to_equation).2.2 : ℝ)
            * x ^ 2 := by
    intro x
    have hfun : (fun y : ℝ => (pl.coeff_x : ℝ) * x + (pl.coeff_y : ℝ) * y
        + (pl.coeff_const : ℝ))
        = fun y : ℝ => ((pl.coeff_x : ℝ) * x + (pl.coeff_const : ℝ))
          + (pl.coeff_y : ℝ) * y := by
      funext y
      ring
    rw [hfun, intervalIntegral_affine]
    simp only [integrate_y]
    push_cast
    ring
  rw [intervalIntegral.integral_congr (fun x _ => inner x),
    intervalIntegral_quadratic]
  simp only [doubleIntegral, integrate_x]
  push_cast
  ring
